import Mathlib

/-!
Verification of the MCP Go client's transport layer (stdio + HTTP transports)
against its natural-language specification.

The definitions below are shallow embeddings of the Go source:
  - `transport/stdio.go`   (subprocess transport: message dispatch, Call,
    CallRaw, Close, pending-request correlation map)
  - `transport/http/http.go` (SessionAwareHTTPClient.Do, parseSSEResponse,
    HTTPTransport.Call/CallRaw/Close/GetSessionID)

Modelling conventions:
  - Go `interface{}` JSON values are a `Json` inductive; JSON numbers are
    modelled as `Int` (request ids are generated as `int64`; the claims
    under verification never exercise fractional numbers).
  - Go maps decoded by `encoding/json` are association lists with the keys
    assumed distinct; field order of marshalled objects is a canonical
    representation choice and never compared across the model boundary.
  - Blocking/concurrent constructs are made explicit: the buffered one-shot
    response channel of each pending call is an `Option RPCResponse` slot,
    and the `select` in `Call` is resolved by a `CallOutcome` oracle naming
    which of its three arms fires (response delivered, context done, or the
    30-second fallback timer).
  - Stream writes are accumulated in `stdinWrites`; diagnostics go to
    `stderrLog`.
-/

/-- JSON values as decoded by `encoding/json` into `interface{}`.
Numbers are modelled as `Int` (see header note). -/
inductive Json where
  | null
  | bool (b : Bool)
  | num (n : Int)
  | str (s : String)
  | arr (elems : List Json)
  | obj (fields : List (String × Json))

/-- A decoded `map[string]interface{}` message. -/
abbrev JsonObj := List (String × Json)

/-- Go map lookup `m[k]` on a decoded JSON object (keys assumed distinct). -/
def jsonLookup (m : JsonObj) (k : String) : Option Json :=
  (m.find? (fun kv => kv.1 == k)).map (fun kv => kv.2)

/-- `jsonrpc.RPCError` as built by `handleResponse`. -/
structure RPCError where
  code : Int
  message : String
  data : Option Json

/-- `jsonrpc.RPCResponse` as built by `handleResponse`. -/
structure RPCResponse where
  result : Option Json
  error : Option RPCError

/-- The error-object translation inside `handleResponse` (stdio.go:294-309):
`code` from a JSON number, `message` from a JSON string, optional `data`. -/
def buildRPCError (em : JsonObj) : RPCError :=
  { code := match jsonLookup em "code" with
            | some (Json.num c) => c
            | _ => 0
    message := match jsonLookup em "message" with
               | some (Json.str s) => s
               | _ => ""
    data := jsonLookup em "data" }

/-- The response translation of `handleResponse` (stdio.go:286-310): `result`
taken verbatim when present; `error` translated when it is a JSON object. -/
def buildRPCResponse (m : JsonObj) : RPCResponse :=
  { result := jsonLookup m "result"
    error := match jsonLookup m "error" with
             | some (Json.obj em) => some (buildRPCError em)
             | _ => none }

/-- Membership test on the pending-request map's key set
(`t.pendingRequests[requestID]` existence check). -/
def hasId : List Int → Int → Bool
  | [], _ => false
  | j :: l, i => if j == i then true else hasId l i

/-- Key removal on the pending-request map (`delete(t.pendingRequests, id)`;
a map holds at most one binding per key). -/
def removeId : List Int → Int → List Int
  | [], _ => []
  | j :: l, i => if j == i then removeId l i else j :: removeId l i

/-- The store of the one-shot buffered response channels, keyed by request id.
`none` is an empty channel, `some r` a channel holding the delivered
response. -/
abbrev ChanStore := List (Int × Option RPCResponse)

/-- Reading a channel's contents by request id (`none` when no channel was
ever registered under that id; ids are unique per transport lifetime). -/
def lookupChan : ChanStore → Int → Option (Option RPCResponse)
  | [], _ => none
  | e :: ch, i => if e.1 == i then some e.2 else lookupChan ch i

/-- A non-blocking/bounded send of `r` into the channel registered under `i`:
fills the slot when empty, otherwise drops `r` (`select`/`default` in `Close`,
the 1-second-bounded send in `handleResponse`). -/
def channelPut : ChanStore → Int → RPCResponse → ChanStore
  | [], _, _ => []
  | e :: ch, i, r =>
    if e.1 == i then
      (e.1, match e.2 with
            | none => some r
            | some x => some x) :: channelPut ch i r
    else e :: channelPut ch i r

/-- State of a `StdioTransport` instance (stdio.go:20-42), with the byte
streams made observable: `stdinWrites` collects the messages written to the
child's stdin, `stderrLog` the diagnostics, `notifLog` the notification
handler invocations. -/
structure StdioState where
  closed : Bool
  nextID : Int
  pending : List Int
  chans : ChanStore
  stdinWrites : List Json
  stderrLog : List String
  requestHandler : Option (String → Option Json → Except String Json)
  notificationHandlerSet : Bool
  notifLog : List (String × Option Json)
  cmdSpawned : Bool
  readerStopped : Bool
  pipesClosed : Bool

/-- `sendMessage` (stdio.go:382-397): marshal (always succeeds on `Json`
values), fail when closed, otherwise write the message line to stdin. -/
def sendMessage (s : StdioState) (msg : Json) : StdioState × Option String :=
  if s.closed then (s, some "transport is closed")
  else ({ s with stdinWrites := s.stdinWrites ++ [msg] }, none)

/-- The error envelope built by `sendErrorResponse` (stdio.go:357-365). -/
def errorEnvelope (idv : Json) (code : Int) (message : String) : Json :=
  Json.obj [("jsonrpc", Json.str "2.0"), ("id", idv),
            ("error", Json.obj [("code", Json.num code),
                                ("message", Json.str message)])]

/-- The success envelope built by `sendSuccessResponse` (stdio.go:371-378). -/
def successEnvelope (idv : Json) (result : Json) : Json :=
  Json.obj [("jsonrpc", Json.str "2.0"), ("id", idv), ("result", result)]

/-- `sendErrorResponse` (stdio.go:357-368); the `sendMessage` error is
ignored, as in the source. -/
def sendErrorResponse (s : StdioState) (idv : Json) (code : Int)
    (message : String) : StdioState :=
  (sendMessage s (errorEnvelope idv code message)).1

/-- `sendSuccessResponse` (stdio.go:371-379). -/
def sendSuccessResponse (s : StdioState) (idv : Json) (result : Json) :
    StdioState :=
  (sendMessage s (successEnvelope idv result)).1

/-- `handleResponse` (stdio.go:270-318): the id must be a JSON number
(`id.(float64)` type assertion), the matching pending entry is removed and
the translated response delivered to its channel; an unknown or non-numeric
id leaves the state untouched. -/
def handleResponse (s : StdioState) (m : JsonObj) (idv : Json) : StdioState :=
  match idv with
  | Json.num n =>
    if hasId s.pending n then
      { s with pending := removeId s.pending n
               chans := channelPut s.chans n (buildRPCResponse m) }
    else s
  | _ => s

/-- `handleServerRequest` (stdio.go:321-340): missing (or non-string)
`method` yields a -32600 envelope; with a registered handler, the handler's
verdict selects a success or -32000 envelope; without one, -32601. -/
def handleServerRequest (s : StdioState) (m : JsonObj) (idv : Json) :
    StdioState :=
  match jsonLookup m "method" with
  | some (Json.str method) =>
    match s.requestHandler with
    | some h =>
      match h method (jsonLookup m "params") with
      | Except.error e => sendErrorResponse s idv (-32000) e
      | Except.ok r => sendSuccessResponse s idv r
    | none => sendErrorResponse s idv (-32601) "Method not found"
  | _ => sendErrorResponse s idv (-32600) "Invalid request: missing method"

/-- `handleNotification` (stdio.go:343-354): non-string method is dropped;
otherwise the notification handler is invoked when registered. -/
def handleNotification (s : StdioState) (m : JsonObj) : StdioState :=
  match jsonLookup m "method" with
  | some (Json.str method) =>
    if s.notificationHandlerSet then
      { s with notifLog := s.notifLog ++ [(method, jsonLookup m "params")] }
    else s
  | _ => s

/-- `processMessage` (stdio.go:242-267) on the outcome of
`json.Unmarshal`-ing one scanned line: malformed JSON is logged and skipped;
a message with an id and a `result` or `error` key is a response; with an id
but neither, a server request; without an id, a notification. -/
def processMessage (s : StdioState)
    (line : Except String JsonObj) : StdioState :=
  match line with
  | Except.error e =>
    { s with stderrLog := s.stderrLog ++ ["MCP invalid JSON received: " ++ e] }
  | Except.ok m =>
    match jsonLookup m "id" with
    | some idv =>
      if (jsonLookup m "result").isSome then handleResponse s m idv
      else if (jsonLookup m "error").isSome then handleResponse s m idv
      else handleServerRequest s m idv
    | none => handleNotification s m

/-- The sequential scanning loop (`readMessages`, stdio.go:216-239)
dispatching a stream of already-decoded lines in order. -/
def dispatchAll (s : StdioState) (msgs : List JsonObj) : StdioState :=
  msgs.foldl (fun st m => processMessage st (Except.ok m)) s

/-- The numeric id of a message, when its `id` field is a JSON number. -/
def msgIdNum (m : JsonObj) : Option Int :=
  match jsonLookup m "id" with
  | some (Json.num n) => some n
  | _ => none

/-- Errors surfaced by `Call`: `fmt.Errorf` strings, a server-supplied
`*jsonrpc.RPCError` returned directly, or `ctx.Err()`. -/
inductive CallError where
  | goError (msg : String)
  | rpcError (e : RPCError)
  | ctxError (msg : String)

/-- Which arm of the `select` in `Call` (stdio.go:461-485) fires first:
the response channel, context cancellation, or the 30-second fallback
timer. -/
inductive CallOutcome where
  | delivered (r : RPCResponse)
  | ctxDone (msg : String)
  | timeout

/-- The fallback timer duration of `Call`, in seconds
(`time.After(30 * time.Second)`, stdio.go:483). -/
def stdioFallbackTimeoutSeconds : Nat := 30

/-- The deferred cleanup in `Call` (stdio.go:448-453): remove the pending
entry and close the response channel. -/
def callCleanup (s : StdioState) (i : Int) : StdioState :=
  { s with pending := removeId s.pending i
           chans := s.chans.filter (fun e => !(e.1 == i)) }

/-- `Call` (stdio.go:420-486) up to (but not including) the decode of the
result into the caller-supplied structure: fail fast when closed; allocate
the next id; register the response channel before writing the request line;
then resolve per the `select` oracle, removing the pending entry on every
exit path.  Returns the final state and either an error or the raw
`response.Result`. -/
def stdioCall (s : StdioState) (method : String) (params : List Json)
    (o : CallOutcome) : StdioState × Except CallError (Option Json) :=
  if s.closed then (s, Except.error (CallError.goError "transport is closed"))
  else
    let i := s.nextID + 1
    let request := Json.obj
      ([("jsonrpc", Json.str "2.0"), ("id", Json.num i),
        ("method", Json.str method)] ++
       (match params.head? with
        | some p => [("params", p)]
        | none => []))
    let s2 := { s with nextID := i
                       pending := s.pending ++ [i]
                       chans := s.chans ++ [(i, none)] }
    match sendMessage s2 request with
    | (s3, some e) =>
      (callCleanup s3 i,
       Except.error (CallError.goError ("failed to send request: " ++ e)))
    | (s3, none) =>
      match o with
      | CallOutcome.delivered r =>
        let s4 := callCleanup s3 i
        match r.error with
        | some e => (s4, Except.error (CallError.rpcError e))
        | none => (s4, Except.ok r.result)
      | CallOutcome.ctxDone msg =>
        (callCleanup s3 i, Except.error (CallError.ctxError msg))
      | CallOutcome.timeout =>
        (callCleanup s3 i, Except.error (CallError.goError "request timeout"))

/-- `json.Unmarshal` of a marshalled result into a
`map[string]interface{}` target: an object populates the map, `null`
leaves it untouched (`nil`), anything else fails. -/
def unmarshalMap : Json → Except String (Option JsonObj)
  | Json.obj fields => Except.ok (some fields)
  | Json.null => Except.ok none
  | _ => Except.error "failed to unmarshal result"

/-- `Call` invoked with a freshly declared `map[string]interface{}` target
(non-nil pointer): the result-population step of stdio.go:467-476 applied
to `stdioCall`'s raw result.  Returns (state, decoded map or `nil`, error),
mirroring Go's out-parameter plus returned error. -/
def stdioCallWithMapTarget (s : StdioState) (method : String)
    (params : List Json) (o : CallOutcome) :
    StdioState × Option JsonObj × Option CallError :=
  match stdioCall s method params o with
  | (s2, Except.error e) => (s2, none, some e)
  | (s2, Except.ok none) => (s2, none, none)
  | (s2, Except.ok (some r)) =>
    match unmarshalMap r with
    | Except.error e => (s2, none, some (CallError.goError e))
    | Except.ok mv => (s2, mv, none)

/-- `CallRaw` (stdio.go:489-493), translated from the source: declare
`var result map[string]interface{}`, invoke
`t.Call(ctx, &result, method, params)` (the single `params` value becomes
the one-element variadic list), return the map and the error. -/
def stdioCallRaw (s : StdioState) (method : String) (p : Json)
    (o : CallOutcome) : StdioState × Option JsonObj × Option CallError :=
  stdioCallWithMapTarget s method [p] o

/-- Modelled from the spec's sentence for `CallRaw` ("same semantics, but
returns the decoded result as an untyped key-value mapping instead of
populating a caller-supplied structure"): the claim's reference program is
literally a declaration of an untyped string-keyed map followed by
`Call(ctx, &map, method, params)`. -/
def callRawViaCallSpec (s : StdioState) (method : String) (p : Json)
    (o : CallOutcome) : StdioState × Option JsonObj × Option CallError :=
  stdioCallWithMapTarget s method [p] o

/-- The synthetic error delivered by `Close` to still-pending calls
(stdio.go:520-525). -/
def closedRPCError : RPCError :=
  { code := -32000, message := "Transport closed", data := none }

/-- The synthetic response enclosing `closedRPCError`. -/
def closedResponse : RPCResponse :=
  { result := none, error := some closedRPCError }

/-- The pending-flush loop of `Close` (stdio.go:517-530): a non-blocking
best-effort send of the synthetic closed response to every channel whose id
is still pending. -/
def closeFlushChans (pending : List Int) : ChanStore → ChanStore
  | [] => []
  | e :: ch =>
    (if hasId pending e.1 then
      (e.1, match e.2 with
            | none => some closedResponse
            | some x => some x)
    else e) :: closeFlushChans pending ch

/-- `Close` (stdio.go:503-570): a no-op returning nil when already closed;
otherwise set the closed flag, stop the reader, flush and clear the pending
map, close the pipes, and — only when a subprocess was spawned — return the
outcome of waiting for (or killing) it, supplied here as the `waitErr`
oracle. -/
def stdioClose (s : StdioState) (waitErr : Option String) :
    StdioState × Option String :=
  if s.closed then (s, none)
  else
    let s3 := { s with closed := true
                       readerStopped := true
                       chans := closeFlushChans s.pending s.chans
                       pending := []
                       pipesClosed := true }
    if s3.cmdSpawned then (s3, waitErr) else (s3, none)

/-- ASCII whitespace as trimmed by `strings.TrimSpace` (the inputs under
verification contain no non-ASCII whitespace). -/
def isSpaceChar (c : Char) : Bool :=
  c == ' ' || c == '\t' || c == '\n' || c == '\r' ||
  c == '\x0b' || c == '\x0c'

/-- `strings.TrimSpace` on a character list. -/
def trimAscii (l : List Char) : List Char :=
  ((l.dropWhile isSpaceChar).reverse.dropWhile isSpaceChar).reverse

/-- `strings.Split(s, "\n")`: `n` separators yield `n + 1` fields. -/
def splitOnNl : List Char → List (List Char)
  | [] => [[]]
  | c :: cs =>
    match splitOnNl cs with
    | [] => [[c]]
    | l :: ls => if c == '\n' then [] :: l :: ls else (c :: l) :: ls

/-- The line-folding core of `parseSSEResponse` (http.go:443-451): trim the
line, keep only `data: `-prefixed lines, strip that marker, and drop empty
payloads and the `[DONE]` sentinel; surviving payloads are concatenated. -/
def parseSSELines (lines : List (List Char)) : List Char :=
  lines.foldl (fun acc line =>
    let line := trimAscii line
    if ("data: ".toList).isPrefixOf line then
      let jsonLine := line.drop 6
      if jsonLine != [] && jsonLine != "[DONE]".toList then acc ++ jsonLine
      else acc
    else acc) []

/-- `parseSSEResponse` (http.go:432-454) as a whole-body string function. -/
def parseSSEResponse (body : String) : String :=
  String.mk (parseSSELines (splitOnNl body.data))

/-- `strings.Contains` on character lists. -/
def containsSub (hay needle : List Char) : Bool :=
  hay.tails.any (fun t => needle.isPrefixOf t)

/-- `SessionAwareHTTPClient` (http.go:382-385); the underlying
`http.Client` carries no correlation state of its own. -/
structure SessionClient where
  sessionID : String

/-- One observed HTTP response, as read by `Do`: the `Mcp-Session-Id`
header (`""` models an absent header, as `Header.Get` returns), the
`Content-Type` header, and the raw body. -/
structure HttpResponseModel where
  sessionHeader : String
  contentType : String
  body : String

/-- `SessionAwareHTTPClient.Do` (http.go:397-424): attach the stored
session id (when non-empty) to the outgoing request; store any non-empty
session id carried by the response; normalize an event-stream body through
`parseSSEResponse`.  Returns (new client state, the attached
`Mcp-Session-Id` request header, the effective body). -/
def clientDo (c : SessionClient) (resp : HttpResponseModel) :
    SessionClient × Option String × String :=
  let attached := if c.sessionID ≠ "" then some c.sessionID else none
  let c2 := if resp.sessionHeader ≠ "" then
              { c with sessionID := resp.sessionHeader }
            else c
  let body := if containsSub resp.contentType.data "text/event-stream".toList
              then parseSSEResponse resp.body
              else resp.body
  (c2, attached, body)

/-- A sequence of exchanges through one `SessionAwareHTTPClient`, collecting
the session header attached to each outgoing request. -/
def clientDoAll (c : SessionClient) :
    List HttpResponseModel → SessionClient × List (Option String)
  | [] => (c, [])
  | r :: rs =>
    let step := clientDo c r
    let rest := clientDoAll step.1 rs
    (rest.1, step.2.1 :: rest.2)

/-- `Config` of the HTTP transport (http.go:457-461). -/
structure HttpConfig where
  serverURL : String
  timeoutSeconds : Nat
  customHeaders : List (String × String)

/-- `HTTPTransport` (http.go:506-510); the wrapped `jsonrpc.RPCClient` is
external and enters only through the exchange oracle of the call model. -/
structure HTTPTransport where
  config : HttpConfig
  sess : SessionClient

/-- `HTTPTransport.Call` (http.go:578-583) with a
`map[string]interface{}` target, the external `CallFor` behaviour supplied
as an oracle: zero params call `CallFor` bare, otherwise only `params[0]`
is forwarded. -/
def httpCallMapTarget
    (callFor : String → List Json → Option JsonObj × Option CallError)
    (method : String) (params : List Json) :
    Option JsonObj × Option CallError :=
  match params with
  | [] => callFor method []
  | p :: _ => callFor method [p]

/-- `HTTPTransport.CallRaw` (http.go:586-590), translated from the source:
declare `var result map[string]interface{}`, invoke
`t.Call(ctx, &result, method, params)`, return the map and the error. -/
def httpCallRaw
    (callFor : String → List Json → Option JsonObj × Option CallError)
    (method : String) (p : Json) : Option JsonObj × Option CallError :=
  httpCallMapTarget callFor method [p]

/-- Modelled from the spec's sentence for `CallRaw` on the HTTP transport:
an untyped string-keyed map populated by `Call(ctx, &map, method, params)`. -/
def httpCallRawViaCallSpec
    (callFor : String → List Json → Option JsonObj × Option CallError)
    (method : String) (p : Json) : Option JsonObj × Option CallError :=
  httpCallMapTarget callFor method [p]

/-- `HTTPTransport.Close` (http.go:598-600): a no-op returning nil. -/
def httpClose (_t : HTTPTransport) : Option String :=
  none

/-- `HTTPTransport.GetSessionID` (http.go:593-595). -/
def httpGetSessionID (t : HTTPTransport) : String :=
  t.sess.sessionID

/-! Concrete fixtures used by the witness and counterexample theorems. -/

/-- A freshly constructed spawned transport (stdio.go:194-204). -/
def freshState : StdioState :=
  { closed := false, nextID := 1, pending := [], chans := []
    stdinWrites := [], stderrLog := [], requestHandler := none
    notificationHandlerSet := false, notifLog := [], cmdSpawned := true
    readerStopped := false, pipesClosed := false }

/-- A transport with two concurrently issued calls (ids 1 and 2) pending. -/
def twoPendingState : StdioState :=
  { freshState with nextID := 2, pending := [1, 2]
                    chans := [(1, none), (2, none)] }

/-- A transport on which `Close` has completed. -/
def closedState : StdioState :=
  { freshState with closed := true, readerStopped := true
                    pipesClosed := true }

/-- A response line for request id 1. -/
def respMsg1 : JsonObj := [("id", Json.num 1), ("result", Json.str "r1")]

/-- A response line for request id 2. -/
def respMsg2 : JsonObj := [("id", Json.num 2), ("result", Json.str "r2")]

/-- An inbound server request line with id 7 and method `ping`. -/
def reqMsgPing : JsonObj := [("id", Json.num 7), ("method", Json.str "ping")]

/-- A response-shaped line whose id is a JSON string, not a number. -/
def badIdMsg : JsonObj := [("id", Json.str "abc"), ("result", Json.null)]

/-- An HTTP response carrying session id `session-A`. -/
def respWithA : HttpResponseModel :=
  { sessionHeader := "session-A", contentType := "application/json"
    body := "" }

/-- An HTTP response carrying session id `session-B`. -/
def respWithB : HttpResponseModel :=
  { sessionHeader := "session-B", contentType := "application/json"
    body := "" }

/-- An HTTP response without a session header. -/
def respNoSession : HttpResponseModel :=
  { sessionHeader := "", contentType := "application/json", body := "" }

/-- A just-constructed HTTP transport. -/
def freshHttpTransport : HTTPTransport :=
  { config := { serverURL := "http://localhost:9831/mcp"
                timeoutSeconds := 30, customHeaders := [] }
    sess := { sessionID := "" } }

theorem hasId_removeId_self (l : List Int) (i : Int) :
    hasId (removeId l i) i = false := by
  induction l with
  | nil => rfl
  | cons a l ih =>
    by_cases h : a = i
    · simp [removeId, h, ih]
    · simp [removeId, hasId, h, ih]

theorem hasId_removeId_ne (l : List Int) (i j : Int) (h : j ≠ i) :
    hasId (removeId l j) i = hasId l i := by
  induction l with
  | nil => rfl
  | cons a l ih =>
    by_cases ha : a = j
    · subst ha
      simp [removeId, hasId, (by simpa using h : ¬ a = i), ih]
    · by_cases hi : a = i
      · subst hi
        simp [removeId, hasId, ha]
      · simp [removeId, hasId, ha, hi, ih]

theorem lookupChan_channelPut_ne (ch : ChanStore) (i j : Int)
    (r : RPCResponse) (h : j ≠ i) :
    lookupChan (channelPut ch j r) i = lookupChan ch i := by
  induction ch with
  | nil => rfl
  | cons e ch ih =>
    by_cases he : e.1 = j
    · simp [channelPut, lookupChan, he, (by simpa using h : ¬ j = i), ih]
    · by_cases hi : e.1 = i
      · simp only [channelPut]
        rw [if_neg (by simpa using he)]
        simp [lookupChan, hi]
      · simp [channelPut, lookupChan, he, hi, ih]

theorem lookupChan_channelPut_self (ch : ChanStore) (i : Int)
    (r : RPCResponse) (h : lookupChan ch i = some none) :
    lookupChan (channelPut ch i r) i = some (some r) := by
  induction ch with
  | nil => simp [lookupChan] at h
  | cons e ch ih =>
    by_cases hi : e.1 = i
    · simp only [lookupChan, hi, beq_self_eq_true, if_true, Option.some.injEq] at h
      simp [channelPut, lookupChan, hi, h]
    · simp only [lookupChan, hi, beq_iff_eq, if_neg] at h
      simp [channelPut, lookupChan, hi, ih h]

theorem lookupChan_closeFlush (p : List Int) (ch : ChanStore) (i : Int)
    (hp : hasId p i = true) (hc : lookupChan ch i = some none) :
    lookupChan (closeFlushChans p ch) i = some (some closedResponse) := by
  induction ch with
  | nil => simp [lookupChan] at hc
  | cons e ch ih =>
    by_cases hi : e.1 = i
    · simp only [lookupChan, hi, beq_self_eq_true, if_true, Option.some.injEq] at hc
      simp [closeFlushChans, lookupChan, hi, hp, hc]
    · simp only [lookupChan, hi, beq_iff_eq, if_neg] at hc
      by_cases hb : hasId p e.1 = true
      · simp [closeFlushChans, lookupChan, hi, hb, ih hc]
      · simp [closeFlushChans, lookupChan, hi, hb, ih hc]

theorem sendErrorResponse_chans (s : StdioState) (idv : Json) (c : Int)
    (msg : String) : (sendErrorResponse s idv c msg).chans = s.chans := by
  unfold sendErrorResponse sendMessage
  split <;> rfl

theorem sendErrorResponse_pending (s : StdioState) (idv : Json) (c : Int)
    (msg : String) : (sendErrorResponse s idv c msg).pending = s.pending := by
  unfold sendErrorResponse sendMessage
  split <;> rfl

theorem sendSuccessResponse_chans (s : StdioState) (idv : Json) (r : Json) :
    (sendSuccessResponse s idv r).chans = s.chans := by
  unfold sendSuccessResponse sendMessage
  split <;> rfl

theorem sendSuccessResponse_pending (s : StdioState) (idv : Json) (r : Json) :
    (sendSuccessResponse s idv r).pending = s.pending := by
  unfold sendSuccessResponse sendMessage
  split <;> rfl

theorem handleServerRequest_chans (s : StdioState) (m : JsonObj) (idv : Json) :
    (handleServerRequest s m idv).chans = s.chans := by
  unfold handleServerRequest
  split
  · split
    · split
      · exact sendErrorResponse_chans ..
      · exact sendSuccessResponse_chans ..
    · exact sendErrorResponse_chans ..
  · exact sendErrorResponse_chans ..

theorem handleServerRequest_pending (s : StdioState) (m : JsonObj)
    (idv : Json) : (handleServerRequest s m idv).pending = s.pending := by
  unfold handleServerRequest
  split
  · split
    · split
      · exact sendErrorResponse_pending ..
      · exact sendSuccessResponse_pending ..
    · exact sendErrorResponse_pending ..
  · exact sendErrorResponse_pending ..

theorem handleNotification_chans (s : StdioState) (m : JsonObj) :
    (handleNotification s m).chans = s.chans := by
  unfold handleNotification
  split
  · split <;> rfl
  · rfl

theorem handleNotification_pending (s : StdioState) (m : JsonObj) :
    (handleNotification s m).pending = s.pending := by
  unfold handleNotification
  split
  · split <;> rfl
  · rfl

theorem handleResponse_other (s : StdioState) (m : JsonObj) (n i : Int)
    (h : n ≠ i) :
    lookupChan (handleResponse s m (Json.num n)).chans i
      = lookupChan s.chans i
  ∧ hasId (handleResponse s m (Json.num n)).pending i = hasId s.pending i := by
  simp only [handleResponse]
  by_cases hp : hasId s.pending n = true
  · rw [if_pos hp]
    exact ⟨lookupChan_channelPut_ne _ _ _ _ h, hasId_removeId_ne _ _ _ h⟩
  · rw [if_neg hp]
    exact ⟨rfl, rfl⟩

theorem handleResponse_nonnum (s : StdioState) (m : JsonObj) (idv : Json)
    (h : ∀ n : Int, idv ≠ Json.num n) : handleResponse s m idv = s := by
  cases idv with
  | num n => exact absurd rfl (h n)
  | null => rfl
  | bool b => rfl
  | str v => rfl
  | arr l => rfl
  | obj f => rfl

theorem processMessage_preserves_other (s : StdioState) (m : JsonObj) (i : Int)
    (hne : msgIdNum m ≠ some i) :
    lookupChan (processMessage s (Except.ok m)).chans i = lookupChan s.chans i
  ∧ hasId (processMessage s (Except.ok m)).pending i = hasId s.pending i := by
  simp only [processMessage]
  cases hid : jsonLookup m "id" with
  | none =>
    simp only []
    exact ⟨by rw [handleNotification_chans], by rw [handleNotification_pending]⟩
  | some idv =>
    simp only []
    by_cases hr : (jsonLookup m "result").isSome = true
    · rw [if_pos hr]
      cases idv with
      | num n =>
        have hn : n ≠ i := by
          intro hni
          apply hne
          rw [msgIdNum, hid, hni]
        exact handleResponse_other s m n i hn
      | null => exact ⟨rfl, rfl⟩
      | bool b => exact ⟨rfl, rfl⟩
      | str v => exact ⟨rfl, rfl⟩
      | arr l => exact ⟨rfl, rfl⟩
      | obj f => exact ⟨rfl, rfl⟩
    · rw [if_neg hr]
      by_cases he : (jsonLookup m "error").isSome = true
      · rw [if_pos he]
        cases idv with
        | num n =>
          have hn : n ≠ i := by
            intro hni
            apply hne
            rw [msgIdNum, hid, hni]
          exact handleResponse_other s m n i hn
        | null => exact ⟨rfl, rfl⟩
        | bool b => exact ⟨rfl, rfl⟩
        | str v => exact ⟨rfl, rfl⟩
        | arr l => exact ⟨rfl, rfl⟩
        | obj f => exact ⟨rfl, rfl⟩
      · rw [if_neg he]
        exact ⟨by rw [handleServerRequest_chans], by rw [handleServerRequest_pending]⟩

theorem processMessage_delivers (s : StdioState) (m : JsonObj) (i : Int)
    (hid : jsonLookup m "id" = some (Json.num i))
    (hresp : ((jsonLookup m "result").isSome || (jsonLookup m "error").isSome)
      = true)
    (hpend : hasId s.pending i = true)
    (hchan : lookupChan s.chans i = some none) :
    lookupChan (processMessage s (Except.ok m)).chans i
      = some (some (buildRPCResponse m))
  ∧ hasId (processMessage s (Except.ok m)).pending i = false := by
  simp only [processMessage, hid]
  by_cases hr : (jsonLookup m "result").isSome = true
  · rw [if_pos hr]
    simp only [handleResponse]
    rw [if_pos hpend]
    exact ⟨lookupChan_channelPut_self _ _ _ hchan, hasId_removeId_self _ _⟩
  · have he : (jsonLookup m "error").isSome = true := by
      rcases Bool.or_eq_true_iff.mp hresp with h | h
      · exact absurd h hr
      · exact h
    rw [if_neg hr, if_pos he]
    simp only [handleResponse]
    rw [if_pos hpend]
    exact ⟨lookupChan_channelPut_self _ _ _ hchan, hasId_removeId_self _ _⟩

theorem processMessage_preserves_done (s : StdioState) (m : JsonObj) (i : Int)
    (hpend : hasId s.pending i = false) :
    lookupChan (processMessage s (Except.ok m)).chans i = lookupChan s.chans i
  ∧ hasId (processMessage s (Except.ok m)).pending i = false := by
  simp only [processMessage]
  cases hid : jsonLookup m "id" with
  | none =>
    simp only []
    exact ⟨by rw [handleNotification_chans],
           by rw [handleNotification_pending, hpend]⟩
  | some idv =>
    simp only []
    have hresp : ∀ u : StdioState, u = handleResponse s m idv →
        lookupChan u.chans i = lookupChan s.chans i
      ∧ hasId u.pending i = false := by
      intro u hu
      subst hu
      cases idv with
      | num n =>
        by_cases hn : n = i
        · subst hn
          simp only [handleResponse]
          rw [if_neg (by simp [hpend])]
          exact ⟨rfl, hpend⟩
        · have := handleResponse_other s m n i hn
          exact ⟨this.1, by rw [this.2, hpend]⟩
      | null => exact ⟨rfl, hpend⟩
      | bool b => exact ⟨rfl, hpend⟩
      | str v => exact ⟨rfl, hpend⟩
      | arr l => exact ⟨rfl, hpend⟩
      | obj f => exact ⟨rfl, hpend⟩
    by_cases hr : (jsonLookup m "result").isSome = true
    · rw [if_pos hr]
      exact hresp _ rfl
    · rw [if_neg hr]
      by_cases he : (jsonLookup m "error").isSome = true
      · rw [if_pos he]
        exact hresp _ rfl
      · rw [if_neg he]
        exact ⟨by rw [handleServerRequest_chans],
               by rw [handleServerRequest_pending, hpend]⟩

theorem dispatchAll_preserves_done (s : StdioState) (msgs : List JsonObj)
    (i : Int) (hpend : hasId s.pending i = false) :
    lookupChan (dispatchAll s msgs).chans i = lookupChan s.chans i
  ∧ hasId (dispatchAll s msgs).pending i = false := by
  induction msgs generalizing s with
  | nil => exact ⟨rfl, hpend⟩
  | cons a msgs ih =>
    have h1 := processMessage_preserves_done s a i hpend
    have h2 := ih (processMessage s (Except.ok a)) h1.2
    simp only [dispatchAll, List.foldl] at *
    exact ⟨h2.1.trans h1.1, h2.2⟩

/-- C1: On one subprocess transport, for any set of concurrently pending
calls with distinct request ids and any arrival order of the response lines
on the output stream (the scanning loop processes them sequentially in that
order), the one-shot channel of the call with request id `i` ends up holding
exactly the translated response whose `id` field equals `i` — correlation is
by id, not by send order. -/
theorem stdio_correlates_responses_by_id
    (s : StdioState) (msgs : List JsonObj) (i : Int) (mi : JsonObj)
    (hpend : hasId s.pending i = true)
    (hchan : lookupChan s.chans i = some none)
    (hmem : mi ∈ msgs)
    (hid : jsonLookup mi "id" = some (Json.num i))
    (hresp : ((jsonLookup mi "result").isSome || (jsonLookup mi "error").isSome)
      = true)
    (huniq : ∀ m ∈ msgs, msgIdNum m = some i → m = mi) :
    lookupChan (dispatchAll s msgs).chans i
      = some (some (buildRPCResponse mi)) := by
  induction msgs generalizing s with
  | nil => cases hmem
  | cons a msgs ih =>
    have hstep : dispatchAll s (a :: msgs)
        = dispatchAll (processMessage s (Except.ok a)) msgs := rfl
    rw [hstep]
    have hmi_num : msgIdNum mi = some i := by rw [msgIdNum, hid]
    by_cases hA : msgIdNum a = some i
    · have ha : a = mi := huniq a (List.mem_cons_self a msgs) hA
      subst ha
      have hdel := processMessage_delivers s a i hid hresp hpend hchan
      have hdone := dispatchAll_preserves_done
        (processMessage s (Except.ok a)) msgs i hdel.2
      exact hdone.1.trans hdel.1
    · have hothers := processMessage_preserves_other s a i hA
      have hmem2 : mi ∈ msgs := by
        rcases List.mem_cons.mp hmem with h | h
        · exact absurd (h ▸ hmi_num) hA
        · exact h
      exact ih (processMessage s (Except.ok a)) (hothers.2.trans hpend)
        (hothers.1.trans hchan) hmem2
        (fun m hm => huniq m (List.mem_cons_of_mem a hm))

theorem stdioClose_closed (s : StdioState) (w : Option String) :
    (stdioClose s w).1.closed = true := by
  by_cases h : s.closed = true
  · simp [stdioClose, h]
  · have hb : s.closed = false := by simpa using h
    simp only [stdioClose, hb, Bool.false_eq_true, if_false]
    split <;> rfl

/-- C4: `Close` on an open transport delivers the synthetic -32000
"Transport closed" response to every still-pending call's channel by a
non-blocking best-effort send and removes every entry from the
pending-request map; a call whose `select` receives this synthetic response
returns the -32000 remote error rather than waiting for its timeout. -/
theorem stdio_close_fails_pending_calls
    (s : StdioState) (w : Option String) (hopen : s.closed = false) :
    (stdioClose s w).1.pending = []
  ∧ (∀ i : Int, hasId s.pending i = true → lookupChan s.chans i = some none →
      lookupChan (stdioClose s w).1.chans i = some (some closedResponse))
  ∧ closedRPCError.code = -32000
  ∧ (∀ (s0 : StdioState) (method : String) (params : List Json),
      s0.closed = false →
      (stdioCall s0 method params (CallOutcome.delivered closedResponse)).2
        = Except.error (CallError.rpcError closedRPCError)) := by
  have h1 : (stdioClose s w).1
      = { s with closed := true, readerStopped := true
                 chans := closeFlushChans s.pending s.chans, pending := []
                 pipesClosed := true } := by
    simp only [stdioClose, hopen, Bool.false_eq_true, if_false]
    split <;> rfl
  refine ⟨by rw [h1], ?_, rfl, ?_⟩
  · intro i hp hc
    rw [h1]
    exact lookupChan_closeFlush s.pending s.chans i hp hc
  · intro s0 method params h0
    simp [stdioCall, sendMessage, h0, closedResponse]

/-- C5: every `Call` or `CallRaw` issued after `Close` fails immediately
with the "transport is closed" error, leaving the state — in particular the
bytes written to the child's stdin — untouched. -/
theorem stdio_call_after_close_fails
    (s : StdioState) (method : String) (params : List Json) (p : Json)
    (o : CallOutcome) (hclosed : s.closed = true) :
    stdioCall s method params o
      = (s, Except.error (CallError.goError "transport is closed"))
  ∧ stdioCallRaw s method p o
      = (s, none, some (CallError.goError "transport is closed"))
  ∧ (stdioCall s method params o).1.stdinWrites = s.stdinWrites := by
  have h1 : ∀ ps : List Json, stdioCall s method ps o
      = (s, Except.error (CallError.goError "transport is closed")) := by
    intro ps
    simp [stdioCall, hclosed]
  refine ⟨h1 params, ?_, by rw [h1 params]⟩
  simp [stdioCallRaw, stdioCallWithMapTarget, h1 [p]]

/-- C6: on a peer that never replies, `Call` returns the "request timeout"
error when the 30-second fallback timer (and not the context) fires, and on
every exit path of `Call` the pending entry registered for the generated
request id has been removed from the pending map. -/
theorem stdio_call_timeout_cleans_pending
    (s : StdioState) (method : String) (params : List Json)
    (hopen : s.closed = false) :
    (stdioCall s method params CallOutcome.timeout).2
      = Except.error (CallError.goError "request timeout")
  ∧ (∀ o : CallOutcome,
      hasId (stdioCall s method params o).1.pending (s.nextID + 1) = false)
  ∧ stdioFallbackTimeoutSeconds = 30 := by
  refine ⟨?_, ?_, rfl⟩
  · simp [stdioCall, sendMessage, hopen]
  · intro o
    cases o with
    | delivered r =>
      cases hre : r.error <;>
        simp [stdioCall, sendMessage, hopen, callCleanup,
              hasId_removeId_self, hre]
    | ctxDone msg =>
      simp [stdioCall, sendMessage, hopen, callCleanup, hasId_removeId_self]
    | timeout =>
      simp [stdioCall, sendMessage, hopen, callCleanup, hasId_removeId_self]

/-- C7: an inbound line with an id but neither `result` nor `error` is a
server request.  With `method` missing, a -32600 "Invalid request" envelope
is written back and — since the resulting state is the same for every value
of the registered handler — no handler is invoked; with `method` present and
no handler registered, a -32601 "Method not found" envelope is written; with
a handler registered, it is invoked on (method, params) and a success or
-32000 error envelope is written according to its verdict. -/
theorem server_request_dispatch_codes
    (s : StdioState) (m : JsonObj) (idv : Json)
    (hopen : s.closed = false)
    (hid : jsonLookup m "id" = some idv)
    (hnores : jsonLookup m "result" = none)
    (hnoerr : jsonLookup m "error" = none) :
    (jsonLookup m "method" = none →
      processMessage s (Except.ok m)
        = { s with stdinWrites := s.stdinWrites
            ++ [errorEnvelope idv (-32600) "Invalid request: missing method"] })
  ∧ (∀ mth : String, jsonLookup m "method" = some (Json.str mth) →
      s.requestHandler = none →
      processMessage s (Except.ok m)
        = { s with stdinWrites := s.stdinWrites
            ++ [errorEnvelope idv (-32601) "Method not found"] })
  ∧ (∀ (mth : String) (h : String → Option Json → Except String Json),
      jsonLookup m "method" = some (Json.str mth) →
      s.requestHandler = some h →
      processMessage s (Except.ok m)
        = match h mth (jsonLookup m "params") with
          | Except.error e =>
            { s with stdinWrites := s.stdinWrites
                ++ [errorEnvelope idv (-32000) e] }
          | Except.ok r =>
            { s with stdinWrites := s.stdinWrites
                ++ [successEnvelope idv r] }) := by
  have hpm : processMessage s (Except.ok m) = handleServerRequest s m idv := by
    simp [processMessage, hid, hnores, hnoerr]
  refine ⟨?_, ?_, ?_⟩
  · intro hm
    rw [hpm]
    simp [handleServerRequest, hm, sendErrorResponse, sendMessage, hopen]
  · intro mth hm hrh
    rw [hpm]
    simp [handleServerRequest, hm, hrh, sendErrorResponse, sendMessage, hopen]
  · intro mth h hm hrh
    rw [hpm]
    simp only [handleServerRequest, hm, hrh]
    cases hres : h mth (jsonLookup m "params") with
    | error e => simp [sendErrorResponse, sendMessage, hopen, hrh, hres]
    | ok r => simp [sendSuccessResponse, sendMessage, hopen, hrh, hres]

/-- C10: an inbound line with an id and a `result` or `error` key whose id
value is not a JSON number is dropped by `handleResponse`'s `float64` type
assertion: the transport state — pending map, channels, writes, logs — is
left entirely unchanged and no reply envelope is written. -/
theorem nonnumeric_id_response_is_noop
    (s : StdioState) (m : JsonObj) (idv : Json)
    (hid : jsonLookup m "id" = some idv)
    (hnum : ∀ n : Int, idv ≠ Json.num n)
    (hshape : ((jsonLookup m "result").isSome || (jsonLookup m "error").isSome)
      = true) :
    processMessage s (Except.ok m) = s := by
  simp only [processMessage, hid]
  by_cases hr : (jsonLookup m "result").isSome = true
  · rw [if_pos hr]
    exact handleResponse_nonnum s m idv hnum
  · have he : (jsonLookup m "error").isSome = true := by
      rcases Bool.or_eq_true_iff.mp hshape with hh | hh
      · exact absurd hh hr
      · exact hh
    rw [if_neg hr, if_pos he]
    exact handleResponse_nonnum s m idv hnum

/-- C3: the streaming-event decoder maps
`"data: {\"a\":1}\n\ndata: [DONE]\n\n"` to exactly `{"a":1}` and the
two-block body `"data: {\"x\":1}\n\ndata: {\"y\":2}\n\n"` to the
concatenation `{"x":1}{"y":2}`: data payloads are extracted and
concatenated in order, the `[DONE]` sentinel and empty payloads are
discarded, and no framing artifacts remain. -/
theorem sse_decoder_examples :
    parseSSEResponse "data: \x7b\"a\":1\x7d\n\ndata: [DONE]\n\n"
      = "\x7b\"a\":1\x7d"
  ∧ parseSSEResponse "data: \x7b\"x\":1\x7d\n\ndata: \x7b\"y\":2\x7d\n\n"
      = "\x7b\"x\":1\x7d\x7b\"y\":2\x7d" :=
  ⟨by decide, by decide⟩

/-- C9: on both transports, `CallRaw(ctx, method, params)` returns exactly
the pair obtained by declaring an untyped string-keyed map and invoking
`Call(ctx, &map, method, params)`: the same error on every failure path and
the same decoded mapping on success. -/
theorem callRaw_refines_call_with_map_target
    (s : StdioState) (method : String) (p : Json) (o : CallOutcome)
    (callFor : String → List Json → Option JsonObj × Option CallError)
    (method2 : String) (p2 : Json) :
    stdioCallRaw s method p o = callRawViaCallSpec s method p o
  ∧ httpCallRaw callFor method2 p2 = httpCallRawViaCallSpec callFor method2 p2 :=
  ⟨rfl, rfl⟩

theorem clientDoAll_stable (sid : String) (resps : List HttpResponseModel)
    (hsid : sid ≠ "")
    (hstable : ∀ r ∈ resps, r.sessionHeader = "" ∨ r.sessionHeader = sid) :
    (clientDoAll ⟨sid⟩ resps).1.sessionID = sid
  ∧ ∀ a ∈ (clientDoAll ⟨sid⟩ resps).2, a = some sid := by
  induction resps with
  | nil =>
    refine ⟨rfl, ?_⟩
    intro a ha
    cases ha
  | cons r rs ih =>
    have hc2 : (clientDo ⟨sid⟩ r).1 = (⟨sid⟩ : SessionClient) := by
      rcases hstable r (List.mem_cons_self r rs) with h | h
      · simp [clientDo, h]
      · simp [clientDo, h, hsid]
    have hat : (clientDo ⟨sid⟩ r).2.1 = some sid := by
      simp [clientDo, hsid]
    have ihh := ih (fun x hx => hstable x (List.mem_cons_of_mem r hx))
    constructor
    · show (clientDoAll (clientDo ⟨sid⟩ r).1 rs).1.sessionID = sid
      rw [hc2]
      exact ihh.1
    · intro a ha
      have ha2 : a = (clientDo ⟨sid⟩ r).2.1
          ∨ a ∈ (clientDoAll (clientDo ⟨sid⟩ r).1 rs).2 :=
        List.mem_cons.mp ha
      rcases ha2 with h | h
      · rw [h, hat]
      · rw [hc2] at h
        exact ihh.2 a h

/-- C2 (counterexample): starting from a fresh session-aware client, a first
response carrying `session-A` stores it, but a later response carrying
`session-B` overwrites the stored id, and the following request goes out
with `session-B`, not the first-observed `session-A` — the claimed
first-writer-wins invariant fails on `Do`. -/
theorem session_id_overwritten_counterexample :
    (clientDoAll ⟨""⟩ [respWithA, respWithB, respNoSession]).2
      = [none, some "session-A", some "session-B"]
  ∧ (clientDoAll ⟨""⟩ [respWithA, respWithB, respNoSession]).1.sessionID
      = "session-B"
  ∧ ("session-B" : String) ≠ "session-A" :=
  ⟨rfl, rfl, by decide⟩

/-- C2 (amended): once a session id is stored, every subsequent outgoing
request carries the currently stored id; responses that omit the session
header (or repeat the stored id) leave it unchanged, so the id persists as
long as no response carries a different one; but a later response carrying
a different non-empty id overwrites the stored id — last non-empty writer
wins, not first writer. -/
theorem session_id_last_nonempty_writer_wins
    (sid : String) (resps : List HttpResponseModel) (hsid : sid ≠ "")
    (hstable : ∀ r ∈ resps, r.sessionHeader = "" ∨ r.sessionHeader = sid) :
    (clientDoAll ⟨sid⟩ resps).1.sessionID = sid
  ∧ (∀ a ∈ (clientDoAll ⟨sid⟩ resps).2, a = some sid)
  ∧ (∀ r : HttpResponseModel, r.sessionHeader ≠ "" →
      (clientDo ⟨sid⟩ r).1.sessionID = r.sessionHeader) := by
  refine ⟨?_, ?_, ?_⟩
  · exact (clientDoAll_stable sid resps hsid hstable).1
  · exact (clientDoAll_stable sid resps hsid hstable).2
  · intro r hr
    simp [clientDo, hr]

/-- C8 (counterexample): on a spawned subprocess transport, the FIRST call
to `Close` returns whatever `cmd.Wait()` returns, which the repository's own
test acknowledges may be a non-nil "signal: broken pipe" error — so `Close`
does not return nil both times as claimed. -/
theorem stdio_close_returns_wait_error_counterexample :
    (stdioClose freshState (some "signal: broken pipe")).2
      = some "signal: broken pipe"
  ∧ (stdioClose freshState (some "signal: broken pipe")).2 ≠ none := by
  refine ⟨rfl, ?_⟩
  intro h
  rw [show (stdioClose freshState (some "signal: broken pipe")).2
      = some "signal: broken pipe" from rfl] at h
  exact Option.noConfusion h

/-- C8 (amended): `Close` is idempotent in effect on both transports —
every call after the first is a no-op returning nil, and the HTTP
transport's `Close` always returns nil; however the stdio transport's first
`Close` returns nil only when no subprocess was spawned, and otherwise
returns the subprocess's wait outcome, which may be a non-nil error. -/
theorem close_idempotent_in_effect
    (s : StdioState) (w w2 : Option String) (t : HTTPTransport) :
    (s.closed = true → stdioClose s w = (s, none))
  ∧ stdioClose (stdioClose s w).1 w2 = ((stdioClose s w).1, none)
  ∧ httpClose t = none
  ∧ (s.closed = false → s.cmdSpawned = false → (stdioClose s w).2 = none) := by
  refine ⟨?_, ?_, rfl, ?_⟩
  · intro h
    simp [stdioClose, h]
  · have hc := stdioClose_closed s w
    rw [stdioClose, if_pos hc]
  · intro h1 h2
    simp [stdioClose, h1, h2]

/-- Witness for C1: two pending calls (ids 1 and 2) with the responses
arriving in reverse order still deliver the id-1 response to call 1. -/
theorem stdio_correlates_responses_by_id_witness :
    lookupChan (dispatchAll twoPendingState [respMsg2, respMsg1]).chans 1
      = some (some (buildRPCResponse respMsg1)) := by
  apply stdio_correlates_responses_by_id twoPendingState [respMsg2, respMsg1]
    1 respMsg1 rfl rfl
    (List.mem_cons_of_mem _ (List.mem_cons_self _ _)) rfl rfl
  intro m hm hidm
  rcases List.mem_cons.mp hm with h | h
  · subst h
    exact absurd hidm (by decide)
  · rcases List.mem_cons.mp h with h2 | h2
    · exact h2
    · cases h2

/-- Witness for C2 (amended): with stored id `session-A`, a header-less
response leaves it in place, while a response carrying `session-B`
overwrites it. -/
theorem session_id_last_nonempty_writer_wins_witness :
    (clientDoAll ⟨"session-A"⟩ [respNoSession]).1.sessionID = "session-A"
  ∧ (clientDo ⟨"session-A"⟩ respWithB).1.sessionID = "session-B" := by
  have h := session_id_last_nonempty_writer_wins "session-A" [respNoSession]
    (by decide) ?_
  · exact ⟨h.1, h.2.2 respWithB (by decide)⟩
  · intro r hr
    rcases List.mem_cons.mp hr with h2 | h2
    · rw [h2]
      exact Or.inl rfl
    · cases h2

/-- Witness for C4: closing the transport with calls 1 and 2 pending
empties the pending map and leaves the -32000 closed response in call 1's
channel. -/
theorem stdio_close_fails_pending_calls_witness :
    (stdioClose twoPendingState none).1.pending = []
  ∧ lookupChan (stdioClose twoPendingState none).1.chans 1
      = some (some closedResponse) := by
  have h := stdio_close_fails_pending_calls twoPendingState none rfl
  exact ⟨h.1, h.2.1 1 rfl rfl⟩

/-- Witness for C5: a call issued on a closed transport fails with the
transport-closed error and changes nothing. -/
theorem stdio_call_after_close_fails_witness :
    stdioCall closedState "tools/list" [] CallOutcome.timeout
      = (closedState, Except.error (CallError.goError "transport is closed"))
  ∧ stdioCallRaw closedState "tools/list" Json.null CallOutcome.timeout
      = (closedState, none,
         some (CallError.goError "transport is closed")) := by
  have h := stdio_call_after_close_fails closedState "tools/list" []
    Json.null CallOutcome.timeout rfl
  exact ⟨h.1, h.2.1⟩

/-- Witness for C6: a timed-out call on a fresh transport returns the
timeout error and leaves no pending entry for its request id. -/
theorem stdio_call_timeout_cleans_pending_witness :
    (stdioCall freshState "ping" [] CallOutcome.timeout).2
      = Except.error (CallError.goError "request timeout")
  ∧ hasId (stdioCall freshState "ping" [] CallOutcome.timeout).1.pending
      (freshState.nextID + 1) = false := by
  have h := stdio_call_timeout_cleans_pending freshState "ping" [] rfl
  exact ⟨h.1, h.2.1 CallOutcome.timeout⟩

/-- Witness for C7: an inbound `ping` request on a transport with no
registered request handler is answered by a -32601 envelope. -/
theorem server_request_dispatch_codes_witness :
    processMessage freshState (Except.ok reqMsgPing)
      = { freshState with stdinWrites :=
          [errorEnvelope (Json.num 7) (-32601) "Method not found"] } := by
  have h := server_request_dispatch_codes freshState reqMsgPing (Json.num 7)
    rfl rfl rfl rfl
  have h2 := h.2.1 "ping" rfl rfl
  simpa using h2

/-- Witness for C8 (amended): closing an already-closed transport is a
no-op returning nil, and the HTTP transport's `Close` returns nil. -/
theorem close_idempotent_in_effect_witness :
    stdioClose closedState (some "signal: broken pipe")
      = (closedState, none)
  ∧ httpClose freshHttpTransport = none := by
  have h := close_idempotent_in_effect closedState
    (some "signal: broken pipe") none freshHttpTransport
  exact ⟨h.1 rfl, h.2.2.1⟩

/-- Witness for C10: a response line with string id `"abc"` leaves a fresh
transport's state untouched. -/
theorem nonnumeric_id_response_is_noop_witness :
    processMessage freshState (Except.ok badIdMsg) = freshState :=
  nonnumeric_id_response_is_noop freshState badIdMsg (Json.str "abc") rfl
    (fun _ h => Json.noConfusion h) (by decide)
